import Mathlib

/-!
Shallow embedding of the call-signaling core of the repository
(src/lib/chat/services/call.service.ts, src/lib/chat/services/webrtc.service.ts
and the chat gateway): presence registry, call socket router, call state
machine and signaling relay.  Maps of the source (JS Map or Set) are modelled
as association lists with unique keys; JS string truthiness checks are
modelled explicitly (a nullable string is truthy iff it is present and
non-empty); timestamps (new Date()) are natural numbers supplied by the
caller; the Prisma store of calls is a list of call records inside the state.
-/

namespace ChatCore

/-- Call status enum of the Prisma schema (CallStatus). -/
inductive CallStatus
  | INITIATED
  | ONGOING
  | ENDED
  | MISSED
deriving DecidableEq, Repr

/-- Whether a call status is terminal: ENDED and MISSED are terminal,
INITIATED and ONGOING are not (spec, section 3). -/
def CallStatus.isTerminal : CallStatus → Bool
  | CallStatus.ENDED => true
  | CallStatus.MISSED => true
  | CallStatus.INITIATED => false
  | CallStatus.ONGOING => false

/-- Participant status enum of the Prisma schema (CallParticipantStatus). -/
inductive CallParticipantStatus
  | JOINED
  | MISSED
deriving DecidableEq, Repr

/-- One row of the privateCallParticipant table, nested inside its call.
The userId column is nullable in the schema (the source guards with
truthiness checks such as if (!p.userId) continue). -/
structure Participant where
  userId : Option String
  status : CallParticipantStatus
  joinedAt : Option Nat
  leftAt : Option Nat
deriving DecidableEq, Repr

/-- One row of the privateCall table, with its participant rows inlined
(the source always fetches the call with include: participants). -/
structure Call where
  id : String
  conversationId : String
  initiatorId : String
  type : String
  status : CallStatus
  startedAt : Option Nat
  endedAt : Option Nat
  participants : List Participant
deriving DecidableEq, Repr

/-- ConversationParticipantType of the Prisma schema, restricted to the two
values the call service reads. -/
inductive ConvPartType
  | ADMIN_GROUP
  | USER
deriving DecidableEq, Repr

/-- A participant row of a privateConversation. -/
structure ConvParticipant where
  userId : Option String
  type : ConvPartType
deriving DecidableEq, Repr

/-- A privateConversation row with its participants. -/
structure Conversation where
  id : String
  participants : List ConvParticipant
deriving DecidableEq, Repr

/-- A connected socket as the services see it: its socket id and the
userId resolved at authentication (client.data.userId, absent when the
connection carries no resolved identity). -/
structure Client where
  id : String
  userId : Option String
deriving DecidableEq, Repr

/-- JS truthiness of a nullable string: present and non-empty. -/
def strTruthy : Option String → Bool
  | none => false
  | some s => decide (s ≠ "")

/-! Association lists standing for JS Map objects: lookup finds the first
binding, set replaces the binding in place or appends, erase removes the
bindings of the key. -/

/-- Map.get: the first binding of the key. -/
def alookup {β : Type} : List (String × β) → String → Option β
  | [], _ => none
  | (k, v) :: rest, key => if k = key then some v else alookup rest key

/-- Map.set: replace the first binding in place, or append a new one. -/
def aset {β : Type} : List (String × β) → String → β → List (String × β)
  | [], k, v => [(k, v)]
  | (k0, v0) :: rest, k, v =>
    if k0 = k then (k, v) :: rest else (k0, v0) :: aset rest k v

/-- Map.delete: remove the bindings of the key. -/
def aerase {β : Type} : List (String × β) → String → List (String × β)
  | [], _ => []
  | (k0, v0) :: rest, k =>
    if k0 = k then aerase rest k else (k0, v0) :: aerase rest k

/-- The process-wide mutable state of the chat gateway and call service,
together with the persistent rows the operations read and write.
clients is the Presence Registry (userId to the ids of its live sockets),
callSocketMap is the Call Socket Map (callId to userId to socketId),
ringTimeouts is the set of call ids with an armed ring timer. -/
structure ChatState where
  clients : List (String × List String)
  callSocketMap : List (String × List (String × String))
  ringTimeouts : List String
  calls : List Call
  conversations : List Conversation
deriving DecidableEq, Repr

/-! Presence Registry (ChatGateway.clients with its helpers). -/

/-- ChatGateway.isOnline: an entry for the user exists. -/
def isOnline (clients : List (String × List String)) (userId : String) : Bool :=
  (alookup clients userId).isSome

/-- ChatGateway.subscribeClient: add the socket to the set of the user,
creating the entry when absent (Set.add is idempotent). -/
def subscribeClient (clients : List (String × List String))
    (userId socketId : String) : List (String × List String) :=
  match alookup clients userId with
  | none => aset clients userId [socketId]
  | some set =>
      aset clients userId (if socketId ∈ set then set else set ++ [socketId])

/-- ChatGateway.unsubscribeClient: remove the socket from the set of the
user, deleting the entry when the set becomes empty. -/
def unsubscribeClient (clients : List (String × List String))
    (userId socketId : String) : List (String × List String) :=
  match alookup clients userId with
  | none => clients
  | some set =>
      let set2 := set.erase socketId
      if set2.isEmpty then aerase clients userId else aset clients userId set2

/-- ChatGateway.getActiveSocketIdsForUser: the socket ids of the user in
set order, skipping the excluded socket id when one is supplied. -/
def getActiveSocketIdsForUser (clients : List (String × List String))
    (userId : String) (excludeSocketId : Option String) : List String :=
  match alookup clients userId with
  | none => []
  | some set => set.filter (fun s => some s ≠ excludeSocketId)

/-! Call Socket Router (CallService.findTargetSocketForRecipient).  The
source guards tier 1 with if (payloadTo && ...) and tier 2 with
if (recorded && recorded !== excludeSocketId): a hint or a recorded socket
id that is the empty string is falsy in JS and falls through. -/

/-- CallService.findTargetSocketForRecipient, translated branch for branch:
prefer the (truthy) hinted socket when it is among the active sockets of the
recipient, then the (truthy) recorded socket of the call when it differs
from the excluded socket, then the first active socket, else null. -/
def findTargetSocketForRecipient (s : ChatState) (callId recipientUserId : String)
    (payloadTo excludeSocketId : Option String) : Option String :=
  let tier2 :=
    let fallback :=
      (getActiveSocketIdsForUser s.clients recipientUserId excludeSocketId).head?
    match alookup s.callSocketMap callId with
    | none => fallback
    | some m =>
      match alookup m recipientUserId with
      | none => fallback
      | some recorded =>
        if recorded ≠ "" ∧ some recorded ≠ excludeSocketId then some recorded
        else fallback
  match payloadTo with
  | none => tier2
  | some hint =>
    if hint ≠ "" ∧
        hint ∈ getActiveSocketIdsForUser s.clients recipientUserId excludeSocketId
    then some hint
    else tier2

/-! Outcomes of one service call: the next state, the socket emissions it
performed, and the TResponse value returned to the acting socket.  Event
and error emissions are kept apart so that theorems can state that no peer
event was emitted.  Wire tag strings follow section 6 of the spec (the
EventsEnum values file is not among the staged sources). -/

/-- One outbound emission: a payload event to a socket, or an error event
to a socket (ChatGateway.emitError, ChatGateway.emitToSocketId). -/
inductive Emit
  | event (socketId : String) (tag : String)
  | errorEvent (socketId : String) (msg : String)
deriving DecidableEq, Repr

/-- The TResponse a service returns: successResponse or errorResponse. -/
inductive TResponse
  | ok (message : String)
  | err (message : String)
deriving DecidableEq, Repr

/-- Whether a TResponse is a successResponse. -/
def isOk : TResponse → Bool
  | TResponse.ok _ => true
  | TResponse.err _ => false

/-- The result of one service operation: next state, emissions, response. -/
structure OpResult where
  state : ChatState
  emits : List Emit
  resp : TResponse
deriving DecidableEq, Repr

/-- ChatGateway.emitError: emit an error event to the acting socket and
return the errorResponse; no state changes. -/
def emitError (s : ChatState) (client : Client) (msg : String) : OpResult :=
  { state := s, emits := [Emit.errorEvent client.id msg], resp := TResponse.err msg }

/-- prisma.privateCall.findUnique with include participants. -/
def findCall (calls : List Call) (cid : String) : Option Call :=
  calls.find? (fun c => c.id = cid)

/-- prisma.privateCall.update where id = cid: rewrite the record with that
id in place. -/
def updateCallRecord (calls : List Call) (cid : String) (f : Call → Call) :
    List Call :=
  calls.map (fun c => if c.id = cid then f c else c)

/-- CallService.clearRingTimeout: clearTimeout plus Map.delete of the id. -/
def clearTimer (l : List String) (cid : String) : List String :=
  l.filter (fun x => x ≠ cid)

/-- CallService.setRingTimeout: clear any prior timer for the id, then arm
one (ringTimeouts.set); the timer set holds at most one entry per id. -/
def armTimer (l : List String) (cid : String) : List String :=
  clearTimer l cid ++ [cid]

/-- CallService.ensureCallSocketEntry followed by .set(userId, socketId):
update the per-call map of the Call Socket Map. -/
def recordRoute (m : List (String × List (String × String)))
    (cid userId socketId : String) : List (String × List (String × String)) :=
  aset m cid (aset ((alookup m cid).getD []) userId socketId)

/-! The Call State Machine (CallService) and the Signaling Relay
(WebRTCService), one definition per service method, translated branch for
branch from the source.  Each prisma call that can throw (create on a
duplicate id, update on a missing id) is modelled as the branch the
HandleError decorator turns into a generic failure response; per section 7
of the spec an infrastructure failure is caught at the boundary, logged and
converted to a generic failure response (the decorator source is not among
the staged files). -/

/-- CallService.initiateCall.  The fresh id the store assigns to the
created call and the current time are passed as arguments. -/
def initiateCall (s : ChatState) (client : Client)
    (conversationId ty newId : String) (now : Nat) : OpResult :=
  match client.userId with
  | none => emitError s client "Unauthorized"
  | some callerId =>
    if callerId = "" then emitError s client "Unauthorized" else
    match s.conversations.find? (fun c => c.id = conversationId) with
    | none => emitError s client "Conversation not found"
    | some conversation =>
      match conversation.participants.find?
          (fun p => p.userId = some callerId ∧ p.type = ConvPartType.ADMIN_GROUP) with
      | none => emitError s client "Only admins may initiate calls"
      | some _ =>
        match conversation.participants.find?
            (fun p => p.type = ConvPartType.USER ∧ strTruthy p.userId = true) with
        | none => emitError s client "No user in conversation to call"
        | some userParticipant =>
          if (findCall s.calls newId).isSome then
            { state := s, emits := [], resp := TResponse.err "Failed to initiate call" }
          else
            let targetId := userParticipant.userId.getD ""
            let call : Call :=
              { id := newId, conversationId := conversationId,
                initiatorId := callerId, type := ty, status := CallStatus.INITIATED,
                startedAt := none, endedAt := none,
                participants :=
                  [ { userId := some callerId,
                      status := CallParticipantStatus.JOINED,
                      joinedAt := none, leftAt := none },
                    { userId := some targetId,
                      status := CallParticipantStatus.MISSED,
                      joinedAt := none, leftAt := none } ] }
            let s2 : ChatState :=
              { s with calls := s.calls ++ [call],
                       callSocketMap := aset s.callSocketMap newId [(callerId, client.id)] }
            let emits :=
              match findTargetSocketForRecipient s2 newId targetId none none with
              | some sock => [Emit.event sock "call.incoming"]
              | none => []
            let s3 : ChatState := { s2 with ringTimeouts := armTimer s2.ringTimeouts newId }
            { state := s3, emits := emits, resp := TResponse.ok "Call initiated" }

/-- privateCallParticipant.update on the first row of the user: set it
JOINED with a join timestamp (acceptCall updates the row found first). -/
def joinFirst : List Participant → String → Nat → List Participant
  | [], _, _ => []
  | p :: rest, u, now =>
    if p.userId = some u then
      { p with status := CallParticipantStatus.JOINED, joinedAt := some now } :: rest
    else p :: joinFirst rest u now

/-- The call record as acceptCall rewrites it: the acting participant row
upserted to JOINED with a join timestamp (updating the first matching row,
or creating one when absent), and the transition to ONGOING with a start
timestamp only while the call is still INITIATED. -/
def acceptedRecord (c : Call) (userId : String) (now : Nat) : Call :=
  let participants2 :=
    match c.participants.find? (fun p => p.userId = some userId) with
    | some _ => joinFirst c.participants userId now
    | none =>
        c.participants ++
          [ { userId := some userId, status := CallParticipantStatus.JOINED,
              joinedAt := some now, leftAt := none } ]
  if c.status = CallStatus.INITIATED then
    { c with participants := participants2,
             status := CallStatus.ONGOING, startedAt := some now }
  else { c with participants := participants2 }

/-- CallService.acceptCall. -/
def acceptCall (s : ChatState) (client : Client) (callId : String) (now : Nat) :
    OpResult :=
  match client.userId with
  | none => emitError s client "Unauthorized"
  | some userId =>
    if userId = "" then emitError s client "Unauthorized" else
    match findCall s.calls callId with
    | none => emitError s client "Call not found"
    | some call =>
      let s2 : ChatState :=
        { s with calls := updateCallRecord s.calls callId
                   (fun _ => acceptedRecord call userId now),
                 callSocketMap := recordRoute s.callSocketMap callId userId client.id,
                 ringTimeouts := clearTimer s.ringTimeouts callId }
      let emits :=
        match call.participants.find? (fun p => p.userId ≠ some userId) with
        | none => []
        | some initiator =>
          if strTruthy initiator.userId then
            match findTargetSocketForRecipient s2 callId (initiator.userId.getD "")
                none none with
            | some sock => [Emit.event sock "call.accepted"]
            | none => []
          else []
      { state := s2, emits := emits, resp := TResponse.ok "Call accepted" }

/-- The call record as rejectCall rewrites it: every participant row of the
acting user marked MISSED with a leave timestamp (updateMany), and the
whole call unconditionally marked MISSED with an end timestamp. -/
def rejectedRecord (c : Call) (userId : String) (now : Nat) : Call :=
  { c with
    participants := c.participants.map (fun p =>
      if p.userId = some userId then
        { p with status := CallParticipantStatus.MISSED, leftAt := some now }
      else p),
    status := CallStatus.MISSED, endedAt := some now }

/-- CallService.rejectCall. -/
def rejectCall (s : ChatState) (client : Client) (callId : String) (now : Nat) :
    OpResult :=
  match client.userId with
  | none => emitError s client "Unauthorized"
  | some userId =>
    if userId = "" then emitError s client "Unauthorized" else
    match findCall s.calls callId with
    | none => emitError s client "Call not found"
    | some call =>
      let s2 : ChatState :=
        { s with calls := updateCallRecord s.calls callId
                   (fun _ => rejectedRecord call userId now),
                 callSocketMap := aerase s.callSocketMap callId,
                 ringTimeouts := clearTimer s.ringTimeouts callId }
      let emits :=
        match call.participants.find? (fun p => p.userId ≠ some userId) with
        | none => []
        | some initiator =>
          if strTruthy initiator.userId then
            match findTargetSocketForRecipient s2 callId (initiator.userId.getD "")
                none none with
            | some sock => [Emit.event sock "call.missed"]
            | none => []
          else []
      { state := s2, emits := emits, resp := TResponse.ok "Call rejected" }

/-- The call record as endCall rewrites it: unconditionally ENDED with an
end timestamp. -/
def endedRecord (c : Call) (now : Nat) : Call :=
  { c with status := CallStatus.ENDED, endedAt := some now }

/-- The call record as the ring timeout callback rewrites it:
unconditionally MISSED with an end timestamp. -/
def timeoutRecord (c : Call) (now : Nat) : Call :=
  { c with status := CallStatus.MISSED, endedAt := some now }

/-- CallService.endCall.  The source reads client.data.userId only for a
log line and performs no identity guard; the first store access is the
unconditional update to ENDED, which throws (and is converted to a generic
failure) only when the call id does not exist. -/
def endCall (s : ChatState) (client : Client) (callId : String) (now : Nat) :
    OpResult :=
  match findCall s.calls callId with
  | none => { state := s, emits := [], resp := TResponse.err "Failed to end call" }
  | some call =>
    let call2 := endedRecord call now
    let s1 : ChatState :=
      { s with calls := updateCallRecord s.calls callId (fun _ => call2),
               ringTimeouts := clearTimer s.ringTimeouts callId }
    let emits :=
      call2.participants.foldr (fun p acc =>
        if strTruthy p.userId then
          match findTargetSocketForRecipient s1 callId (p.userId.getD "") none none with
          | some sock => Emit.event sock "call.ended" :: acc
          | none => acc
        else acc) []
    let s2 : ChatState := { s1 with callSocketMap := aerase s1.callSocketMap callId }
    { state := s2, emits := emits, resp := TResponse.ok "Call ended" }

/-- The ring timeout callback armed by CallService.setRingTimeout: mark the
call MISSED and drop its Call Socket Map entry; when the update throws
(missing id) the error is logged and only the timer entry is cleared. -/
def ringTimeoutFire (s : ChatState) (callId : String) (now : Nat) : ChatState :=
  match findCall s.calls callId with
  | none => { s with ringTimeouts := clearTimer s.ringTimeouts callId }
  | some call =>
    { s with calls := updateCallRecord s.calls callId (fun _ => timeoutRecord call now),
             callSocketMap := aerase s.callSocketMap callId,
             ringTimeouts := clearTimer s.ringTimeouts callId }

/-- WebRTCService.forwardOffer, forwardAnswer and forwardCandidate are
identical line for line except for the outbound event tag and the shape of
the relayed payload (which the core never inspects); the shared body is
therefore defined once, parameterized by the tag. -/
def forwardSignal (tag : String) (s : ChatState) (client : Client)
    (callId : String) (toHint : Option String) : OpResult :=
  match client.userId with
  | none => emitError s client "Unauthorized"
  | some fromId =>
    if fromId = "" then emitError s client "Unauthorized" else
    match findCall s.calls callId with
    | none => emitError s client "Call not found"
    | some call =>
      match call.participants.find? (fun p => p.userId ≠ some fromId) with
      | none => emitError s client "Recipient not found"
      | some other =>
        if strTruthy other.userId then
          match findTargetSocketForRecipient s callId (other.userId.getD "") toHint
              (some client.id) with
          | none => emitError s client "Recipient not available"
          | some target =>
            { state :=
                { s with callSocketMap := recordRoute s.callSocketMap callId fromId client.id },
              emits := [Emit.event target tag],
              resp := TResponse.ok "forwarded" }
        else emitError s client "Recipient not found"

/-- WebRTCService.forwardOffer. -/
def forwardOffer (s : ChatState) (client : Client) (callId : String)
    (toHint : Option String) : OpResult :=
  forwardSignal "rtc.offer" s client callId toHint

/-- WebRTCService.forwardAnswer. -/
def forwardAnswer (s : ChatState) (client : Client) (callId : String)
    (toHint : Option String) : OpResult :=
  forwardSignal "rtc.answer" s client callId toHint

/-- WebRTCService.forwardCandidate. -/
def forwardCandidate (s : ChatState) (client : Client) (callId : String)
    (toHint : Option String) : OpResult :=
  forwardSignal "rtc.ice-candidate" s client callId toHint

/-! Traces: the operations an execution can interleave on the shared state,
and when each is enabled.  A ring timeout can fire only while its timer is
armed. -/

/-- One inbound operation on the shared state. -/
inductive Op
  | initiate (client : Client) (conversationId ty newId : String) (now : Nat)
  | accept (client : Client) (callId : String) (now : Nat)
  | reject (client : Client) (callId : String) (now : Nat)
  | endOp (client : Client) (callId : String) (now : Nat)
  | ringFire (callId : String) (now : Nat)
  | forward (tag : String) (client : Client) (callId : String) (toHint : Option String)
deriving DecidableEq, Repr

/-- Apply one operation. -/
def applyOp (s : ChatState) : Op → OpResult
  | Op.initiate c cid ty nid now => initiateCall s c cid ty nid now
  | Op.accept c cid now => acceptCall s c cid now
  | Op.reject c cid now => rejectCall s c cid now
  | Op.endOp c cid now => endCall s c cid now
  | Op.ringFire cid now =>
      { state := ringTimeoutFire s cid now, emits := [], resp := TResponse.ok "timeout" }
  | Op.forward tag c cid toHint => forwardSignal tag s c cid toHint

/-- Whether an operation can occur in the given state: a ring timeout fires
only while its timer is armed; every other operation is externally driven. -/
def opEnabled (s : ChatState) : Op → Bool
  | Op.ringFire cid _ => cid ∈ s.ringTimeouts
  | _ => true

/-- A list of operations each enabled at its point when run in order. -/
def ValidOps : ChatState → List Op → Prop
  | _, [] => True
  | s, op :: rest => opEnabled s op = true ∧ ValidOps (applyOp s op).state rest

/-- Run a list of operations in order. -/
def applyOps (s : ChatState) : List Op → ChatState
  | [] => s
  | op :: rest => applyOps (applyOp s op).state rest

/-! Presence event traces, for the registry claims: a subscribe or an
unsubscribe of one (user, socket) pair, as delivered by the connection
lifecycle callbacks of the gateway. -/

/-- One connection lifecycle event. -/
inductive PresenceEvent
  | sub (userId socketId : String)
  | unsub (userId socketId : String)
deriving DecidableEq, Repr

/-- Apply one lifecycle event to the registry. -/
def applyPresence (clients : List (String × List String)) :
    PresenceEvent → List (String × List String)
  | PresenceEvent.sub u s => subscribeClient clients u s
  | PresenceEvent.unsub u s => unsubscribeClient clients u s

/-- Run a sequence of lifecycle events from the empty registry. -/
def runPresence (evs : List PresenceEvent) : List (String × List String) :=
  evs.foldl applyPresence []

/-- The set of connections of a user in the registry (empty when the user
has no entry). -/
def connsOf (clients : List (String × List String)) (u : String) : List String :=
  (alookup clients u).getD []

/-- One step of the reference live-connection set of a user: a subscribe
adds the socket if absent, an unsubscribe removes it. -/
def liveStep (u : String) (acc : List String) : PresenceEvent → List String
  | PresenceEvent.sub u2 s => if u2 = u then (if s ∈ acc then acc else acc ++ [s]) else acc
  | PresenceEvent.unsub u2 s => if u2 = u then acc.erase s else acc

/-- The set of connections of a user subscribed and not since unsubscribed,
computed from the event sequence alone (the reference the amended claim
compares the registry against). -/
def liveConns (evs : List PresenceEvent) (u : String) : List String :=
  evs.foldl (liveStep u) []

/-- The number of subscribe events for a user in the sequence. -/
def subCountFor (evs : List PresenceEvent) (u : String) : Nat :=
  (evs.filter (fun e => match e with
    | PresenceEvent.sub u2 _ => u2 = u
    | PresenceEvent.unsub _ _ => false)).length

/-- The number of unsubscribe events for a user in the sequence. -/
def unsubCountFor (evs : List PresenceEvent) (u : String) : Nat :=
  (evs.filter (fun e => match e with
    | PresenceEvent.sub _ _ => false
    | PresenceEvent.unsub u2 _ => u2 = u)).length

/-! Router resolution policies written from the words of the claim and of
the spec, for the refinement comparison of claim C4. -/

/-- The resolution policy as claim C4 words it: the hint if it is among the
active connections of the recipient excluding the excluded one; else the
recorded socket-map connection for (callId, recipient) if present and
different from the excluded one; else the first active connection; else
null.  Each tier is a hard fallback to the next. -/
def resolveTargetClaim (s : ChatState) (callId recipientUserId : String)
    (hint excludeSocketId : Option String) : Option String :=
  let active := getActiveSocketIdsForUser s.clients recipientUserId excludeSocketId
  let tierHint : Option String :=
    match hint with
    | some h => if h ∈ active then some h else none
    | none => none
  let tierRecorded : Option String :=
    match (alookup s.callSocketMap callId).bind (fun m => alookup m recipientUserId) with
    | some rec0 => if some rec0 ≠ excludeSocketId then some rec0 else none
    | none => none
  (tierHint <|> tierRecorded) <|> active.head?

/-- The resolution policy of the claim amended only where the source guards
with JS truthiness: the hint and the recorded connection are used only when
non-empty (an empty-string identifier is falsy and falls through). -/
def resolveTargetAmended (s : ChatState) (callId recipientUserId : String)
    (hint excludeSocketId : Option String) : Option String :=
  let active := getActiveSocketIdsForUser s.clients recipientUserId excludeSocketId
  let tierHint : Option String :=
    match hint with
    | some h => if h ≠ "" ∧ h ∈ active then some h else none
    | none => none
  let tierRecorded : Option String :=
    match (alookup s.callSocketMap callId).bind (fun m => alookup m recipientUserId) with
    | some rec0 => if rec0 ≠ "" ∧ some rec0 ≠ excludeSocketId then some rec0 else none
    | none => none
  (tierHint <|> tierRecorded) <|> active.head?

/-! Concrete fixtures used by counterexamples and witnesses: a conversation
between admin a (socket sa) and user b (socket sb), and the states a short
scenario reaches. -/

/-- A one-to-one conversation: admin a and user b. -/
def exConv : Conversation :=
  { id := "conv1",
    participants := [ { userId := some "a", type := ConvPartType.ADMIN_GROUP },
                      { userId := some "b", type := ConvPartType.USER } ] }

/-- The socket of admin a. -/
def exAdmin : Client := { id := "sa", userId := some "a" }

/-- The socket of user b. -/
def exUser : Client := { id := "sb", userId := some "b" }

/-- A socket with no resolved user identity. -/
def exNoId : Client := { id := "s9", userId := none }

/-- The initial state: empty registry, maps and store, one conversation. -/
def exBase : ChatState :=
  { clients := [], callSocketMap := [], ringTimeouts := [], calls := [],
    conversations := [exConv] }

/-- The state after admin a initiated call c1. -/
def exInitiated : ChatState :=
  (initiateCall exBase exAdmin "conv1" "VOICE" "c1" 0).state

/-- The participant row initiateCall creates for the callee b. -/
def exCalleeRow : Participant :=
  { userId := some "b", status := CallParticipantStatus.MISSED,
    joinedAt := none, leftAt := none }

/-- The call record initiateCall creates as c1. -/
def exCallRecord : Call :=
  { id := "c1", conversationId := "conv1", initiatorId := "a", type := "VOICE",
    status := CallStatus.INITIATED, startedAt := none, endedAt := none,
    participants :=
      [ { userId := some "a", status := CallParticipantStatus.JOINED,
          joinedAt := none, leftAt := none },
        exCalleeRow ] }

/-- The record of c1 in the state exEnded. -/
def exEndedRecord : Call :=
  { exCallRecord with status := CallStatus.ENDED, endedAt := some 3 }

/-- The state after call c1 was further ended (terminal status ENDED). -/
def exEnded : ChatState := (endCall exInitiated exAdmin "c1" 3).state

/-- A registry snapshot for the router claims: recipient r has two live
sockets, sA and the (pathological but representable) empty socket id. -/
def exRouter : ChatState :=
  { clients := [("r", ["sA", ""])], callSocketMap := [], ringTimeouts := [],
    calls := [], conversations := [] }

/-- The presence event sequence of the C6 counterexample: the same pair is
subscribed twice and unsubscribed once. -/
def exDupEvents : List PresenceEvent :=
  [PresenceEvent.sub "u" "s", PresenceEvent.sub "u" "s", PresenceEvent.unsub "u" "s"]

/-- The operation sequence of the C9 counterexample: initiate c1, reject it
(terminal status MISSED, socket map entry dropped), then accept it again. -/
def exC9Ops : List Op :=
  [ Op.initiate exAdmin "conv1" "VOICE" "c1" 0,
    Op.reject exUser "c1" 1,
    Op.accept exUser "c1" 2 ]

/-! Helper lemmas on the map and list primitives. -/

theorem alookup_aset_self {β : Type} (l : List (String × β)) (k : String) (v : β) :
    alookup (aset l k v) k = some v := by
  induction l with
  | nil => simp [aset, alookup]
  | cons kv rest ih =>
    obtain ⟨k0, v0⟩ := kv
    by_cases h : k0 = k
    · simp [aset, h, alookup]
    · simp [aset, h, alookup, ih]

theorem alookup_aset_ne {β : Type} (l : List (String × β)) (k k2 : String) (v : β)
    (h : k2 ≠ k) : alookup (aset l k v) k2 = alookup l k2 := by
  induction l with
  | nil => simp [aset, alookup, Ne.symm h]
  | cons kv rest ih =>
    obtain ⟨k0, v0⟩ := kv
    by_cases h0 : k0 = k
    · subst h0
      simp [aset, alookup, Ne.symm h]
    · simp [aset, alookup, h0, ih]

theorem alookup_aerase_self {β : Type} (l : List (String × β)) (k : String) :
    alookup (aerase l k) k = none := by
  induction l with
  | nil => rfl
  | cons kv rest ih =>
    obtain ⟨k0, v0⟩ := kv
    by_cases h : k0 = k
    · simpa [aerase, h] using ih
    · simpa [aerase, alookup, h] using ih

theorem alookup_aerase_ne {β : Type} (l : List (String × β)) (k k2 : String)
    (h : k2 ≠ k) : alookup (aerase l k) k2 = alookup l k2 := by
  induction l with
  | nil => rfl
  | cons kv rest ih =>
    obtain ⟨k0, v0⟩ := kv
    by_cases h0 : k0 = k
    · subst h0
      simp [aerase, alookup, Ne.symm h, ih]
    · simp [aerase, alookup, h0, ih]

theorem mem_clearTimer_iff (l : List String) (cid x : String) :
    x ∈ clearTimer l cid ↔ x ∈ l ∧ x ≠ cid := by
  simp [clearTimer, List.mem_filter]

theorem not_mem_clearTimer_self (l : List String) (cid : String) :
    cid ∉ clearTimer l cid := by
  simp [mem_clearTimer_iff]

theorem mem_armTimer_iff (l : List String) (cid x : String) :
    x ∈ armTimer l cid ↔ (x ∈ l ∧ x ≠ cid) ∨ x = cid := by
  simp [armTimer, mem_clearTimer_iff]

theorem findCall_id (calls : List Call) (cid : String) (c : Call)
    (h : findCall calls cid = some c) : c.id = cid := by
  have := List.find?_some h
  simpa using this

theorem findCall_cons (c0 : Call) (rest : List Call) (cid : String) :
    findCall (c0 :: rest) cid =
      (if c0.id = cid then some c0 else findCall rest cid) := by
  by_cases h : c0.id = cid <;> simp [findCall, List.find?, h]

theorem findCall_updateCallRecord (calls : List Call) (cid : String) (f : Call → Call)
    (hf : ∀ c, c.id = cid → (f c).id = cid) :
    findCall (updateCallRecord calls cid f) cid =
      (findCall calls cid).map (fun c => if c.id = cid then f c else c) := by
  induction calls with
  | nil => simp [findCall, updateCallRecord]
  | cons c0 rest ih =>
    by_cases h : c0.id = cid
    · simp [updateCallRecord, findCall_cons, h, hf c0 h]
    · simpa [updateCallRecord, findCall_cons, h] using ih

theorem findCall_updateCallRecord_ne (calls : List Call) (cid cid2 : String)
    (f : Call → Call) (hf : ∀ c, c.id = cid → (f c).id = cid) (h : cid2 ≠ cid) :
    findCall (updateCallRecord calls cid f) cid2 = findCall calls cid2 := by
  induction calls with
  | nil => rfl
  | cons c0 rest ih =>
    have hrec : updateCallRecord (c0 :: rest) cid f =
        (if c0.id = cid then f c0 else c0) :: updateCallRecord rest cid f := by
      simp [updateCallRecord]
    rw [hrec, findCall_cons, findCall_cons]
    by_cases h0 : c0.id = cid
    · rw [if_pos h0]
      have h1 : ¬ (f c0).id = cid2 := by rw [hf c0 h0]; exact Ne.symm h
      have h2 : ¬ c0.id = cid2 := by rw [h0]; exact Ne.symm h
      rw [if_neg h1, if_neg h2, ih]
    · rw [if_neg h0]
      by_cases h2 : c0.id = cid2
      · rw [if_pos h2, if_pos h2]
      · rw [if_neg h2, if_neg h2, ih]

theorem findCall_append_left (l1 l2 : List Call) (cid : String) (c : Call)
    (h : findCall l1 cid = some c) : findCall (l1 ++ l2) cid = some c := by
  induction l1 with
  | nil => simp [findCall] at h
  | cons c0 rest ih =>
    rw [findCall_cons] at h
    by_cases h0 : c0.id = cid
    · rw [if_pos h0] at h
      simp [findCall_cons, h0, h]
    · rw [if_neg h0] at h
      simpa [findCall_cons, h0] using ih h

theorem findCall_append_isSome (l1 l2 : List Call) (cid : String)
    (h : (findCall l1 cid).isSome = true) :
    (findCall (l1 ++ l2) cid).isSome = true := by
  obtain ⟨c, hc⟩ := Option.isSome_iff_exists.mp h
  rw [findCall_append_left l1 l2 cid c hc]
  rfl

theorem mem_getActive_ne_exclude (clients : List (String × List String))
    (u x : String) (ex : Option String)
    (h : x ∈ getActiveSocketIdsForUser clients u ex) : some x ≠ ex := by
  unfold getActiveSocketIdsForUser at h
  cases ha : alookup clients u with
  | none => rw [ha] at h; simp at h
  | some set =>
    rw [ha] at h
    have := (List.mem_filter.mp h).2
    simpa using this

theorem head?_mem {α : Type} (l : List α) (a : α) (h : l.head? = some a) : a ∈ l := by
  cases l with
  | nil => simp at h
  | cons x xs =>
    simp only [List.head?] at h
    injection h with h
    simp [h]

/-- Every socket the router resolves differs from the excluded socket:
tier 1 and tier 3 are drawn from the active list with the exclusion already
applied, and tier 2 checks the recorded socket against the exclusion. -/
theorem findTarget_some_ne_exclude (s : ChatState) (cid r : String)
    (pt ex : Option String) (x : String)
    (h : findTargetSocketForRecipient s cid r pt ex = some x) :
    some x ≠ ex := by
  have hhead : ∀ y, (getActiveSocketIdsForUser s.clients r ex).head? = some y →
      some y ≠ ex := fun y hy =>
    mem_getActive_ne_exclude s.clients r y ex (head?_mem _ y hy)
  simp only [findTargetSocketForRecipient] at h
  split at h
  · -- payloadTo = none: tier 2 with fallback
    split at h
    · exact hhead x h
    · split at h
      · exact hhead x h
      · split at h
        · rename_i recorded hcond
          injection h with h
          subst h
          exact hcond.2
        · exact hhead x h
  · -- payloadTo = some hint
    split at h
    · rename_i hcond
      injection h with h
      subst h
      exact mem_getActive_ne_exclude s.clients r _ ex hcond.2
    · split at h
      · exact hhead x h
      · split at h
        · exact hhead x h
        · split at h
          · rename_i recorded hcond
            injection h with h
            subst h
            exact hcond.2
          · exact hhead x h

/-- C10: for every call, recipient, hint, and supplied excluded connection
identifier, the connection returned by findTargetSocketForRecipient is
never equal to the excluded identifier: all three resolution tiers filter
it out, so the sender of a relay is never chosen as its own target. -/
theorem resolveTarget_never_returns_excluded (s : ChatState) (cid r : String)
    (payloadTo : Option String) (e : String) :
    decide (findTargetSocketForRecipient s cid r payloadTo (some e) = some e) = false := by
  rw [decide_eq_false_iff_not]
  intro h
  exact findTarget_some_ne_exclude s cid r payloadTo (some e) e h rfl

/-- C4 counterexample: with hint some-empty-string supplied and the empty
socket id among the active connections of the recipient, the claim requires
the hint to be returned, but the source skips the falsy hint (and here
resolves the first active socket sA instead). -/
theorem findTarget_ignores_empty_hint :
    "" ∈ getActiveSocketIdsForUser exRouter.clients "r" none ∧
    resolveTargetClaim exRouter "c1" "r" (some "") none = some "" ∧
    findTargetSocketForRecipient exRouter "c1" "r" (some "") none = some "sA" ∧
    decide (findTargetSocketForRecipient exRouter "c1" "r" (some "") none =
      resolveTargetClaim exRouter "c1" "r" (some "") none) = false := by
  decide

/-- C4 (amended): the source router equals the three-tier hard-fallback
policy of the claim, amended only where JS truthiness intervenes: the hint
tier and the recorded tier apply only to non-empty identifiers.  Both sides
are functions of the snapshot and the four arguments, so resolution is
deterministic. -/
theorem findTarget_eq_tiered_resolution (s : ChatState) (cid r : String)
    (hint ex : Option String) :
    findTargetSocketForRecipient s cid r hint ex = resolveTargetAmended s cid r hint ex := by
  have hcore :
      (match alookup s.callSocketMap cid with
        | none => (getActiveSocketIdsForUser s.clients r ex).head?
        | some m =>
          match alookup m r with
          | none => (getActiveSocketIdsForUser s.clients r ex).head?
          | some recorded =>
            if recorded ≠ "" ∧ some recorded ≠ ex then some recorded
            else (getActiveSocketIdsForUser s.clients r ex).head?) =
      ((match (alookup s.callSocketMap cid).bind (fun m => alookup m r) with
         | some rec0 => if rec0 ≠ "" ∧ some rec0 ≠ ex then some rec0 else none
         | none => none) <|> (getActiveSocketIdsForUser s.clients r ex).head?) := by
    cases halm : alookup s.callSocketMap cid with
    | none => simp
    | some m =>
      cases halr : alookup m r with
      | none => simp [halr]
      | some rec0 =>
        by_cases hc : rec0 ≠ "" ∧ some rec0 ≠ ex
        · simp [halr, hc]
        · simp [halr, hc]
  simp only [findTargetSocketForRecipient, resolveTargetAmended]
  cases hint with
  | none =>
    simpa using hcore
  | some h =>
    by_cases hc : h ≠ "" ∧ h ∈ getActiveSocketIdsForUser s.clients r ex
    · simp [hc]
    · simpa [hc] using hcore

/-- C2: the source of endCall reads client.data.userId only for a log line
and performs no identity guard, unlike initiateCall, acceptCall and
rejectCall.  Invoked by a connection with no resolved user identity on the
existing call c1, it still marks the call ENDED and returns a success
response, with no authorization error reported: the claim fails for End. -/
theorem endCall_without_identity_still_ends_call :
    (exNoId.userId = none) ∧
    isOk (endCall exInitiated exNoId "c1" 3).resp = true ∧
    (findCall (endCall exInitiated exNoId "c1" 3).state.calls "c1").map Call.status
      = some CallStatus.ENDED ∧
    ((endCall exInitiated exNoId "c1" 3).emits.all (fun e => match e with
      | Emit.errorEvent _ _ => false
      | Emit.event _ _ => true)) = true := by
  decide

/-- C1 counterexample: call c1 has the terminal status ENDED, yet a Reject
by participant b changes the status to MISSED: the operations do leave
terminal states (between the two terminal values). -/
theorem reject_on_ended_call_sets_missed :
    (findCall exEnded.calls "c1").map Call.status = some CallStatus.ENDED ∧
    (findCall (rejectCall exEnded exUser "c1" 4).state.calls "c1").map Call.status
      = some CallStatus.MISSED := by
  decide

/-- C6 counterexample: subscribing the same (user, socket) pair twice and
unsubscribing it once leaves the multiset difference of subscribes minus
unsubscribes non-empty, yet isOnline is false: the registry set is not the
multiset of the claim (Set.add is idempotent). -/
theorem isOnline_not_multiset_count :
    subCountFor exDupEvents "u" - unsubCountFor exDupEvents "u" = 1 ∧
    isOnline (runPresence exDupEvents) "u" = false := by
  decide

/-- C7 counterexample: on the existing call c1 whose status is the terminal
ENDED, accepting twice by the same user b leaves the status ENDED, not
ONGOING as the claim states for every existing call. -/
theorem accept_twice_on_ended_call_not_ongoing :
    (findCall exEnded.calls "c1").map Call.status = some CallStatus.ENDED ∧
    (findCall ((acceptCall (acceptCall exEnded exUser "c1" 5).state exUser "c1" 6).state.calls)
        "c1").map Call.status = some CallStatus.ENDED ∧
    decide ((findCall ((acceptCall (acceptCall exEnded exUser "c1" 5).state exUser "c1" 6).state.calls)
        "c1").map Call.status = some CallStatus.ONGOING) = false := by
  decide

/-- C9 counterexample: a reachable state (initiate c1, reject it, accept it
again; every step enabled) in which call c1 has the terminal status MISSED
and the Call Socket Map nevertheless holds an entry for c1, because
acceptCall re-creates the entry without checking the call status. -/
theorem accept_recreates_socket_entry_for_terminated_call :
    ValidOps exBase exC9Ops ∧
    (findCall (applyOps exBase exC9Ops).calls "c1").map Call.status
      = some CallStatus.MISSED ∧
    (alookup (applyOps exBase exC9Ops).callSocketMap "c1").isSome = true := by
  refine ⟨?_, by decide, by decide⟩
  simp [ValidOps, exC9Ops, opEnabled]

/-! Reduction lemmas for the operations under their success hypotheses, and
inversions of a success response. -/

theorem findCall_update_self (calls : List Call) (cid : String) (c newRec : Call)
    (hc : findCall calls cid = some c) (hid : newRec.id = cid) :
    findCall (updateCallRecord calls cid (fun _ => newRec)) cid = some newRec := by
  rw [findCall_updateCallRecord calls cid _ (fun c1 _ => hid)]
  rw [hc]
  simp [findCall_id calls cid c hc]

theorem acceptedRecord_id (c : Call) (u : String) (now : Nat) :
    (acceptedRecord c u now).id = c.id := by
  by_cases h : c.status = CallStatus.INITIATED <;> simp [acceptedRecord, h]

theorem acceptedRecord_status (c : Call) (u : String) (now : Nat) :
    (acceptedRecord c u now).status =
      (if c.status = CallStatus.INITIATED then CallStatus.ONGOING else c.status) := by
  by_cases h : c.status = CallStatus.INITIATED <;> simp [acceptedRecord, h]

theorem acceptedRecord_startedAt (c : Call) (u : String) (now : Nat) :
    (acceptedRecord c u now).startedAt =
      (if c.status = CallStatus.INITIATED then some now else c.startedAt) := by
  by_cases h : c.status = CallStatus.INITIATED <;> simp [acceptedRecord, h]

theorem acceptCall_state (s : ChatState) (client : Client) (cid u : String)
    (now : Nat) (c : Call) (hu : client.userId = some u) (hne : u ≠ "")
    (hc : findCall s.calls cid = some c) :
    (acceptCall s client cid now).state =
      { s with calls := updateCallRecord s.calls cid (fun _ => acceptedRecord c u now),
               callSocketMap := recordRoute s.callSocketMap cid u client.id,
               ringTimeouts := clearTimer s.ringTimeouts cid } := by
  simp [acceptCall, hu, hne, hc]

theorem rejectCall_state (s : ChatState) (client : Client) (cid u : String)
    (now : Nat) (c : Call) (hu : client.userId = some u) (hne : u ≠ "")
    (hc : findCall s.calls cid = some c) :
    (rejectCall s client cid now).state =
      { s with calls := updateCallRecord s.calls cid (fun _ => rejectedRecord c u now),
               callSocketMap := aerase s.callSocketMap cid,
               ringTimeouts := clearTimer s.ringTimeouts cid } := by
  simp [rejectCall, hu, hne, hc]

theorem endCall_state (s : ChatState) (client : Client) (cid : String)
    (now : Nat) (c : Call) (hc : findCall s.calls cid = some c) :
    (endCall s client cid now).state =
      { s with calls := updateCallRecord s.calls cid (fun _ => endedRecord c now),
               callSocketMap := aerase s.callSocketMap cid,
               ringTimeouts := clearTimer s.ringTimeouts cid } := by
  simp [endCall, hc]

theorem acceptCall_ok (s : ChatState) (client : Client) (cid : String) (now : Nat)
    (hok : isOk (acceptCall s client cid now).resp = true) :
    ∃ u c, client.userId = some u ∧ u ≠ "" ∧ findCall s.calls cid = some c := by
  cases hcu : client.userId with
  | none => simp [acceptCall, hcu, emitError, isOk] at hok
  | some u =>
    by_cases hne : u = ""
    · simp [acceptCall, hcu, hne, emitError, isOk] at hok
    · cases hc : findCall s.calls cid with
      | none => simp [acceptCall, hcu, hne, hc, emitError, isOk] at hok
      | some c => exact ⟨u, c, rfl, hne, rfl⟩

theorem rejectCall_ok (s : ChatState) (client : Client) (cid : String) (now : Nat)
    (hok : isOk (rejectCall s client cid now).resp = true) :
    ∃ u c, client.userId = some u ∧ u ≠ "" ∧ findCall s.calls cid = some c := by
  cases hcu : client.userId with
  | none => simp [rejectCall, hcu, emitError, isOk] at hok
  | some u =>
    by_cases hne : u = ""
    · simp [rejectCall, hcu, hne, emitError, isOk] at hok
    · cases hc : findCall s.calls cid with
      | none => simp [rejectCall, hcu, hne, hc, emitError, isOk] at hok
      | some c => exact ⟨u, c, rfl, hne, rfl⟩

theorem endCall_ok (s : ChatState) (client : Client) (cid : String) (now : Nat)
    (hok : isOk (endCall s client cid now).resp = true) :
    ∃ c, findCall s.calls cid = some c := by
  cases hc : findCall s.calls cid with
  | none => simp [endCall, hc, isOk] at hok
  | some c => exact ⟨c, rfl⟩

/-- C3: for every existing call and an acting user who is one of its
participants, Reject marks the whole call MISSED with an end timestamp and
marks every participant row of the acting user MISSED with a leave
timestamp, unconditionally in the prior status of the call and of the other
participant. -/
theorem rejectCall_marks_call_and_actor_missed (s : ChatState) (client : Client)
    (cid u : String) (now : Nat) (c : Call)
    (hu : client.userId = some u) (hne : u ≠ "")
    (hc : findCall s.calls cid = some c)
    (hp : ∃ p ∈ c.participants, p.userId = some u) :
    ∃ c2, findCall (rejectCall s client cid now).state.calls cid = some c2 ∧
      c2.status = CallStatus.MISSED ∧ c2.endedAt = some now ∧
      (∃ p ∈ c2.participants, p.userId = some u ∧
        p.status = CallParticipantStatus.MISSED ∧ p.leftAt = some now) ∧
      (∀ p ∈ c2.participants, p.userId = some u →
        p.status = CallParticipantStatus.MISSED ∧ p.leftAt = some now) := by
  refine ⟨rejectedRecord c u now, ?_, rfl, rfl, ?_, ?_⟩
  · rw [rejectCall_state s client cid u now c hu hne hc]
    exact findCall_update_self s.calls cid c (rejectedRecord c u now) hc
      (findCall_id s.calls cid c hc)
  · obtain ⟨p, hpmem, hpu⟩ := hp
    refine ⟨{ p with status := CallParticipantStatus.MISSED, leftAt := some now },
      ?_, by simpa using hpu, rfl, rfl⟩
    simp only [rejectedRecord, List.mem_map]
    refine ⟨p, hpmem, ?_⟩
    rw [if_pos hpu]
  · intro p2 hp2 hpu2
    simp only [rejectedRecord, List.mem_map] at hp2
    obtain ⟨q, hq, hqe⟩ := hp2
    by_cases h : q.userId = some u
    · rw [if_pos h] at hqe
      rw [← hqe]
      exact ⟨rfl, rfl⟩
    · rw [if_neg h] at hqe
      rw [← hqe] at hpu2
      exact absurd hpu2 h

/-- Witness for C3 at the concrete state exInitiated: user b rejects c1. -/
theorem rejectCall_marks_call_and_actor_missed_witness :
    ∃ c2, findCall (rejectCall exInitiated exUser "c1" 7).state.calls "c1" = some c2 ∧
      c2.status = CallStatus.MISSED ∧ c2.endedAt = some 7 ∧
      (∃ p ∈ c2.participants, p.userId = some "b" ∧
        p.status = CallParticipantStatus.MISSED ∧ p.leftAt = some 7) ∧
      (∀ p ∈ c2.participants, p.userId = some "b" →
        p.status = CallParticipantStatus.MISSED ∧ p.leftAt = some 7) :=
  rejectCall_marks_call_and_actor_missed exInitiated exUser "c1" "b" 7 exCallRecord
    (by decide) (by decide) (by decide) (by decide)

/-! Presence Registry lemmas: the per-user view of the registry follows the
reference live-connection set step for step, and no entry is ever left
empty. -/

theorem connsOf_subscribe (clients : List (String × List String)) (u2 s0 u : String) :
    connsOf (subscribeClient clients u2 s0) u =
      liveStep u (connsOf clients u) (PresenceEvent.sub u2 s0) := by
  by_cases hu : u2 = u
  · subst hu
    unfold subscribeClient
    cases ha : alookup clients u2 with
    | none => simp [liveStep, connsOf, ha, alookup_aset_self]
    | some set => simp [liveStep, connsOf, ha, alookup_aset_self]
  · unfold subscribeClient
    cases ha : alookup clients u2 with
    | none => simp [liveStep, connsOf, hu, alookup_aset_ne _ _ _ _ (Ne.symm hu)]
    | some set => simp [liveStep, connsOf, hu, alookup_aset_ne _ _ _ _ (Ne.symm hu)]

theorem connsOf_unsubscribe (clients : List (String × List String)) (u2 s0 u : String) :
    connsOf (unsubscribeClient clients u2 s0) u =
      liveStep u (connsOf clients u) (PresenceEvent.unsub u2 s0) := by
  by_cases hu : u2 = u
  · subst hu
    unfold unsubscribeClient
    cases ha : alookup clients u2 with
    | none => simp [liveStep, connsOf, ha]
    | some set =>
      by_cases hemp : (set.erase s0).isEmpty
      · have h0 : set.erase s0 = [] := by simpa using hemp
        simp [liveStep, connsOf, ha, hemp, alookup_aerase_self, h0]
      · simp [liveStep, connsOf, ha, hemp, alookup_aset_self]
  · unfold unsubscribeClient
    cases ha : alookup clients u2 with
    | none => simp [liveStep, connsOf, hu, ha]
    | some set =>
      by_cases hemp : (set.erase s0).isEmpty
      · simp [liveStep, connsOf, hu, ha, hemp, alookup_aerase_ne _ _ _ (Ne.symm hu)]
      · simp [liveStep, connsOf, hu, ha, hemp, alookup_aset_ne _ _ _ _ (Ne.symm hu)]

theorem subscribe_no_empty (clients : List (String × List String)) (u2 s0 : String)
    (h : ∀ u l, alookup clients u = some l → l ≠ []) :
    ∀ u l, alookup (subscribeClient clients u2 s0) u = some l → l ≠ [] := by
  intro u l hl
  unfold subscribeClient at hl
  cases ha : alookup clients u2 with
  | none =>
    rw [ha] at hl
    by_cases hu : u = u2
    · subst hu
      rw [alookup_aset_self] at hl
      injection hl with hl
      subst hl
      simp
    · rw [alookup_aset_ne _ _ _ _ hu] at hl
      exact h u l hl
  | some set =>
    rw [ha] at hl
    by_cases hu : u = u2
    · subst hu
      rw [alookup_aset_self] at hl
      injection hl with hl
      subst hl
      by_cases hs : s0 ∈ set
      · rw [if_pos hs]
        exact h _ set ha
      · rw [if_neg hs]
        simp
    · rw [alookup_aset_ne _ _ _ _ hu] at hl
      exact h u l hl

theorem unsubscribe_no_empty (clients : List (String × List String)) (u2 s0 : String)
    (h : ∀ u l, alookup clients u = some l → l ≠ []) :
    ∀ u l, alookup (unsubscribeClient clients u2 s0) u = some l → l ≠ [] := by
  intro u l hl
  unfold unsubscribeClient at hl
  cases ha : alookup clients u2 with
  | none =>
    rw [ha] at hl
    exact h u l hl
  | some set =>
    simp only [ha] at hl
    by_cases hemp : (set.erase s0).isEmpty
    · rw [if_pos hemp] at hl
      by_cases hu : u = u2
      · subst hu
        rw [alookup_aerase_self] at hl
        exact absurd hl (by simp)
      · rw [alookup_aerase_ne _ _ _ hu] at hl
        exact h u l hl
    · rw [if_neg hemp] at hl
      by_cases hu : u = u2
      · subst hu
        rw [alookup_aset_self] at hl
        injection hl with hl
        subst hl
        simpa using hemp
      · rw [alookup_aset_ne _ _ _ _ hu] at hl
        exact h u l hl

theorem connsOf_foldl (evs : List PresenceEvent) (u : String) :
    ∀ clients, connsOf (evs.foldl applyPresence clients) u =
      evs.foldl (liveStep u) (connsOf clients u) := by
  induction evs with
  | nil => intro clients; rfl
  | cons e rest ih =>
    intro clients
    rw [List.foldl_cons, List.foldl_cons, ih]
    have hstep : connsOf (applyPresence clients e) u = liveStep u (connsOf clients u) e := by
      cases e with
      | sub u2 s0 => exact connsOf_subscribe clients u2 s0 u
      | unsub u2 s0 => exact connsOf_unsubscribe clients u2 s0 u
    rw [hstep]

theorem runPresence_no_empty (evs : List PresenceEvent) :
    ∀ clients, (∀ u l, alookup clients u = some l → l ≠ []) →
      ∀ u l, alookup (evs.foldl applyPresence clients) u = some l → l ≠ [] := by
  induction evs with
  | nil => intro clients h; exact h
  | cons e rest ih =>
    intro clients h
    refine ih (applyPresence clients e) ?_
    cases e with
    | sub u2 s0 => exact subscribe_no_empty clients u2 s0 h
    | unsub u2 s0 => exact unsubscribe_no_empty clients u2 s0 h

/-- C6 (amended): for every sequence of subscribe and unsubscribe events,
isOnline is true iff the set of connections of the user subscribed and not
since unsubscribed is non-empty (set semantics, not multiset: duplicate
subscribes of a pair are idempotent), and the registry never holds an empty
entry: an entry exists iff the user has at least one live connection, and
it is removed when the last connection detaches. -/
theorem isOnline_iff_live_connection_set (evs : List PresenceEvent) (u : String) :
    isOnline (runPresence evs) u = !((liveConns evs u).isEmpty) ∧
    (∀ l, alookup (runPresence evs) u = some l → l ≠ []) := by
  have hnoempty : ∀ u2 l, alookup (runPresence evs) u2 = some l → l ≠ [] := by
    refine runPresence_no_empty evs [] ?_
    intro u2 l hl
    simp [alookup] at hl
  have hconns : connsOf (runPresence evs) u = liveConns evs u := by
    have h0 := connsOf_foldl evs u []
    simpa [runPresence, liveConns, connsOf, alookup] using h0
  refine ⟨?_, hnoempty u⟩
  cases hl : alookup (runPresence evs) u with
  | none =>
    have h0 : liveConns evs u = [] := by
      rw [← hconns]
      simp [connsOf, hl]
    simp [isOnline, hl, h0]
  | some l =>
    have hlne : l ≠ [] := hnoempty u l hl
    have h1 : liveConns evs u = l := by
      rw [← hconns]
      simp [connsOf, hl]
    rw [isOnline, hl, h1]
    cases l with
    | nil => exact absurd rfl hlne
    | cons a as => simp

/-- Witness for C6 at the concrete event sequence of the counterexample. -/
theorem isOnline_iff_live_connection_set_witness :
    isOnline (runPresence exDupEvents) "u" = !((liveConns exDupEvents "u").isEmpty) :=
  (isOnline_iff_live_connection_set exDupEvents "u").1

/-! Accept idempotence (C7). -/

theorem joinFirst_exists (l : List Participant) (u : String) (t : Nat)
    (h : ∃ p ∈ l, p.userId = some u) :
    ∃ p ∈ joinFirst l u t, p.userId = some u ∧
      p.status = CallParticipantStatus.JOINED ∧ p.joinedAt = some t := by
  induction l with
  | nil =>
    obtain ⟨p, hp, _⟩ := h
    exact absurd hp (List.not_mem_nil p)
  | cons p0 rest ih =>
    by_cases h0 : p0.userId = some u
    · refine ⟨{ p0 with status := CallParticipantStatus.JOINED, joinedAt := some t },
        ?_, by simpa using h0, rfl, rfl⟩
      simp [joinFirst, h0]
    · obtain ⟨p, hp, hpu⟩ := h
      rcases List.mem_cons.mp hp with heq | hmem
      · subst heq
        exact absurd hpu h0
      · obtain ⟨q, hq, hq2⟩ := ih ⟨p, hmem, hpu⟩
        refine ⟨q, ?_, hq2⟩
        simp [joinFirst, h0, hq]

theorem acceptedRecord_participants_exists (c : Call) (u : String) (now : Nat) :
    ∃ p ∈ (acceptedRecord c u now).participants, p.userId = some u ∧
      p.status = CallParticipantStatus.JOINED ∧ p.joinedAt = some now := by
  have hparts : (acceptedRecord c u now).participants =
      (match c.participants.find? (fun p => p.userId = some u) with
       | some _ => joinFirst c.participants u now
       | none => c.participants ++
           [ { userId := some u, status := CallParticipantStatus.JOINED,
               joinedAt := some now, leftAt := none } ]) := by
    by_cases h : c.status = CallStatus.INITIATED <;> simp [acceptedRecord, h]
  rw [hparts]
  cases hfind : c.participants.find? (fun p => p.userId = some u) with
  | none =>
    exact ⟨_, List.mem_append_right _ (List.mem_singleton.mpr rfl), rfl, rfl, rfl⟩
  | some q =>
    have hq : q.userId = some u := by simpa using List.find?_some hfind
    exact joinFirst_exists c.participants u now ⟨q, List.mem_of_find?_eq_some hfind, hq⟩

/-- C7 (amended): for every existing call whose status is INITIATED or
ONGOING, accepting twice by the same user leaves the call ONGOING with the
start timestamp of the first Accept (the INITIATED to ONGOING transition
and its timestamp are not re-triggered by the second Accept) and leaves the
acting participant JOINED. -/
theorem accept_idempotent_on_live_call (s : ChatState) (client : Client)
    (cid u : String) (t1 t2 : Nat) (c : Call)
    (hu : client.userId = some u) (hne : u ≠ "")
    (hc : findCall s.calls cid = some c)
    (hst : c.status = CallStatus.INITIATED ∨ c.status = CallStatus.ONGOING) :
    ∃ c1 c2,
      findCall (acceptCall s client cid t1).state.calls cid = some c1 ∧
      findCall (acceptCall (acceptCall s client cid t1).state client cid t2).state.calls cid
        = some c2 ∧
      c1.status = CallStatus.ONGOING ∧ c2.status = CallStatus.ONGOING ∧
      c2.startedAt = c1.startedAt ∧
      (∃ p ∈ c2.participants, p.userId = some u ∧
        p.status = CallParticipantStatus.JOINED) := by
  have hid1 : (acceptedRecord c u t1).id = cid := by
    rw [acceptedRecord_id]
    exact findCall_id s.calls cid c hc
  have hc1 : findCall (acceptCall s client cid t1).state.calls cid
      = some (acceptedRecord c u t1) := by
    rw [acceptCall_state s client cid u t1 c hu hne hc]
    exact findCall_update_self s.calls cid c _ hc hid1
  have hst1 : (acceptedRecord c u t1).status = CallStatus.ONGOING := by
    rcases hst with h | h <;> rw [acceptedRecord_status] <;> simp [h]
  have hc2 : findCall (acceptCall (acceptCall s client cid t1).state client cid t2).state.calls cid
      = some (acceptedRecord (acceptedRecord c u t1) u t2) := by
    rw [acceptCall_state _ client cid u t2 (acceptedRecord c u t1) hu hne hc1]
    exact findCall_update_self _ cid _ _ hc1 (by rw [acceptedRecord_id]; exact hid1)
  have hnotInit : ¬ (acceptedRecord c u t1).status = CallStatus.INITIATED := by
    rw [hst1]
    simp
  refine ⟨acceptedRecord c u t1, acceptedRecord (acceptedRecord c u t1) u t2,
    hc1, hc2, hst1, ?_, ?_, ?_⟩
  · rw [acceptedRecord_status, if_neg hnotInit, hst1]
  · rw [acceptedRecord_startedAt, if_neg hnotInit]
  · obtain ⟨p, hp, hp1, hp2, _⟩ :=
      acceptedRecord_participants_exists (acceptedRecord c u t1) u t2
    exact ⟨p, hp, hp1, hp2⟩

/-- Witness for C7: user b accepts the INITIATED call c1 twice. -/
theorem accept_idempotent_on_live_call_witness :
    ∃ c1 c2,
      findCall (acceptCall exInitiated exUser "c1" 5).state.calls "c1" = some c1 ∧
      findCall (acceptCall (acceptCall exInitiated exUser "c1" 5).state exUser "c1" 6).state.calls "c1"
        = some c2 ∧
      c1.status = CallStatus.ONGOING ∧ c2.status = CallStatus.ONGOING ∧
      c2.startedAt = c1.startedAt ∧
      (∃ p ∈ c2.participants, p.userId = some "b" ∧
        p.status = CallParticipantStatus.JOINED) :=
  accept_idempotent_on_live_call exInitiated exUser "c1" "b" 5 6 exCallRecord
    (by decide) (by decide) (by decide) (by decide)

/-! The relay with an unreachable recipient (C8). -/

/-- C8: on an existing call with an identified recipient, when the router
resolves no connection the relay reports Recipient not available to the
sender only, emits no event to any peer and changes no state; and no relay
forward, successful or not, ever touches the call records. -/
theorem relay_unavailable_no_mutation (tag : String) (s : ChatState) (client : Client)
    (cid u : String) (toHint : Option String) (c : Call) (other : Participant)
    (hu : client.userId = some u) (hne : u ≠ "")
    (hc : findCall s.calls cid = some c)
    (hother : c.participants.find? (fun p => p.userId ≠ some u) = some other)
    (hoid : strTruthy other.userId = true)
    (htarget : findTargetSocketForRecipient s cid (other.userId.getD "") toHint
      (some client.id) = none) :
    (forwardSignal tag s client cid toHint).state = s ∧
    (forwardSignal tag s client cid toHint).emits =
      [Emit.errorEvent client.id "Recipient not available"] ∧
    (forwardSignal tag s client cid toHint).resp =
      TResponse.err "Recipient not available" ∧
    ∀ (tag2 : String) (s2 : ChatState) (client2 : Client) (cid2 : String)
      (toHint2 : Option String),
      (forwardSignal tag2 s2 client2 cid2 toHint2).state.calls = s2.calls := by
  have hotherN := hother
  simp only [ne_eq, decide_not] at hotherN
  refine ⟨?_, ?_, ?_, ?_⟩
  · simp [forwardSignal, hu, hne, hc, hotherN, hoid, htarget, emitError]
  · simp [forwardSignal, hu, hne, hc, hotherN, hoid, htarget, emitError]
  · simp [forwardSignal, hu, hne, hc, hotherN, hoid, htarget, emitError]
  · intro tag2 s2 client2 cid2 toHint2
    cases hcu : client2.userId with
    | none => simp [forwardSignal, hcu, emitError]
    | some u2 =>
      by_cases hne2 : u2 = ""
      · simp [forwardSignal, hcu, hne2, emitError]
      · cases hc2 : findCall s2.calls cid2 with
        | none => simp [forwardSignal, hcu, hne2, hc2, emitError]
        | some c2 =>
          cases hother2 : c2.participants.find? (fun p => !decide (p.userId = some u2)) with
          | none => simp [forwardSignal, hcu, hne2, hc2, hother2, emitError]
          | some o2 =>
            by_cases hoid2 : strTruthy o2.userId = true
            · cases ht2 : findTargetSocketForRecipient s2 cid2 (o2.userId.getD "")
                toHint2 (some client2.id) with
              | none => simp [forwardSignal, hcu, hne2, hc2, hother2, hoid2, ht2, emitError]
              | some t2 => simp [forwardSignal, hcu, hne2, hc2, hother2, hoid2, ht2]
            · simp [forwardSignal, hcu, hne2, hc2, hother2, hoid2, emitError]

/-- Witness for C8: admin a sends an offer for c1 while b has no live
connection and no recorded route. -/
theorem relay_unavailable_no_mutation_witness :
    (forwardSignal "rtc.offer" exInitiated exAdmin "c1" none).state = exInitiated ∧
    (forwardSignal "rtc.offer" exInitiated exAdmin "c1" none).emits =
      [Emit.errorEvent exAdmin.id "Recipient not available"] ∧
    (forwardSignal "rtc.offer" exInitiated exAdmin "c1" none).resp =
      TResponse.err "Recipient not available" ∧
    ∀ (tag2 : String) (s2 : ChatState) (client2 : Client) (cid2 : String)
      (toHint2 : Option String),
      (forwardSignal tag2 s2 client2 cid2 toHint2).state.calls = s2.calls :=
  relay_unavailable_no_mutation "rtc.offer" exInitiated exAdmin "c1" "a" none
    exCallRecord exCalleeRow (by decide) (by decide) (by decide) (by decide)
    (by decide) (by decide)

/-! Frame facts: what each operation can do to the call store and the
timer set.  Every operation either leaves the store unchanged, rewrites one
existing record in place (never lowering a terminal status to a
non-terminal one) while clearing that timer, or appends one fresh record
while arming its timer. -/

theorem forwardSignal_frame (tag : String) (s : ChatState) (client : Client)
    (cid : String) (toHint : Option String) :
    (forwardSignal tag s client cid toHint).state.calls = s.calls ∧
    (forwardSignal tag s client cid toHint).state.ringTimeouts = s.ringTimeouts := by
  unfold forwardSignal
  split
  · exact ⟨rfl, rfl⟩
  · split
    · exact ⟨rfl, rfl⟩
    · split
      · exact ⟨rfl, rfl⟩
      · split
        · exact ⟨rfl, rfl⟩
        · split
          · split
            · exact ⟨rfl, rfl⟩
            · exact ⟨rfl, rfl⟩
          · exact ⟨rfl, rfl⟩

theorem applyOp_shape (s : ChatState) (op : Op) :
    ((applyOp s op).state.calls = s.calls ∧
      ((applyOp s op).state.ringTimeouts = s.ringTimeouts ∨
        ∃ k, (applyOp s op).state.ringTimeouts = clearTimer s.ringTimeouts k)) ∨
    (∃ k c0 newRec, findCall s.calls k = some c0 ∧ newRec.id = k ∧
      (c0.status.isTerminal = true → newRec.status.isTerminal = true) ∧
      (applyOp s op).state.calls = updateCallRecord s.calls k (fun _ => newRec) ∧
      (applyOp s op).state.ringTimeouts = clearTimer s.ringTimeouts k) ∨
    (∃ newC, (findCall s.calls newC.id).isSome = false ∧
      (applyOp s op).state.calls = s.calls ++ [newC] ∧
      (applyOp s op).state.ringTimeouts = armTimer s.ringTimeouts newC.id) := by
  cases op with
  | initiate client conversationId ty newId now =>
    simp only [applyOp]
    unfold initiateCall
    split
    · exact Or.inl ⟨rfl, Or.inl rfl⟩
    · split
      · exact Or.inl ⟨rfl, Or.inl rfl⟩
      · split
        · exact Or.inl ⟨rfl, Or.inl rfl⟩
        · split
          · exact Or.inl ⟨rfl, Or.inl rfl⟩
          · split
            · exact Or.inl ⟨rfl, Or.inl rfl⟩
            · rename_i callerId hcu hne conversation hconv adminp hadmin userParticipant huser
              split
              · exact Or.inl ⟨rfl, Or.inl rfl⟩
              · rename_i hdup
                refine Or.inr (Or.inr ⟨_, ?_, rfl, rfl⟩)
                simpa using hdup
  | accept client cid now =>
    simp only [applyOp]
    unfold acceptCall
    split
    · exact Or.inl ⟨rfl, Or.inl rfl⟩
    · rename_i u hcu
      split
      · exact Or.inl ⟨rfl, Or.inl rfl⟩
      · rename_i hne
        split
        · exact Or.inl ⟨rfl, Or.inl rfl⟩
        · rename_i c hc
          refine Or.inr (Or.inl ⟨cid, c, acceptedRecord c u now, hc, ?_, ?_, rfl, rfl⟩)
          · rw [acceptedRecord_id]
            exact findCall_id s.calls cid c hc
          · intro hterm
            rw [acceptedRecord_status]
            split
            · rename_i hinit
              rw [hinit] at hterm
              exact absurd hterm (by simp [CallStatus.isTerminal])
            · exact hterm
  | reject client cid now =>
    simp only [applyOp]
    unfold rejectCall
    split
    · exact Or.inl ⟨rfl, Or.inl rfl⟩
    · rename_i u hcu
      split
      · exact Or.inl ⟨rfl, Or.inl rfl⟩
      · rename_i hne
        split
        · exact Or.inl ⟨rfl, Or.inl rfl⟩
        · rename_i c hc
          exact Or.inr (Or.inl ⟨cid, c, rejectedRecord c u now, hc,
            findCall_id s.calls cid c hc, fun _ => rfl, rfl, rfl⟩)
  | endOp client cid now =>
    simp only [applyOp]
    unfold endCall
    split
    · exact Or.inl ⟨rfl, Or.inl rfl⟩
    · rename_i c hc
      exact Or.inr (Or.inl ⟨cid, c, endedRecord c now, hc,
        findCall_id s.calls cid c hc, fun _ => rfl, rfl, rfl⟩)
  | ringFire cid now =>
    simp only [applyOp]
    unfold ringTimeoutFire
    split
    · exact Or.inl ⟨rfl, Or.inr ⟨cid, rfl⟩⟩
    · rename_i c hc
      exact Or.inr (Or.inl ⟨cid, c, timeoutRecord c now, hc,
        findCall_id s.calls cid c hc, fun _ => rfl, rfl, rfl⟩)
  | forward tag client cid toHint =>
    simp only [applyOp]
    exact Or.inl ⟨(forwardSignal_frame tag s client cid toHint).1,
      Or.inl (forwardSignal_frame tag s client cid toHint).2⟩

/-- C9 (amended): Reject, End and the Ring Timeout delete the Call Socket
Map entry of the call when they set its terminal status; Accept and
successful relay forwards, however, perform no status check and can
re-create an entry for a terminated call (see the counterexample). -/
theorem terminal_ops_drop_socket_entry (s : ChatState) (client : Client)
    (cid : String) (now : Nat) :
    (isOk (rejectCall s client cid now).resp = true →
      alookup (rejectCall s client cid now).state.callSocketMap cid = none) ∧
    (isOk (endCall s client cid now).resp = true →
      alookup (endCall s client cid now).state.callSocketMap cid = none) ∧
    ((findCall s.calls cid).isSome = true →
      alookup (ringTimeoutFire s cid now).callSocketMap cid = none) := by
  refine ⟨?_, ?_, ?_⟩
  · intro hok
    obtain ⟨u, c, hu, hne, hc⟩ := rejectCall_ok s client cid now hok
    rw [rejectCall_state s client cid u now c hu hne hc]
    exact alookup_aerase_self s.callSocketMap cid
  · intro hok
    obtain ⟨c, hc⟩ := endCall_ok s client cid now hok
    rw [endCall_state s client cid now c hc]
    exact alookup_aerase_self s.callSocketMap cid
  · intro hsome
    obtain ⟨c, hc⟩ := Option.isSome_iff_exists.mp hsome
    simp [ringTimeoutFire, hc, alookup_aerase_self]

/-- Witness for C9: rejecting c1 drops its socket map entry. -/
theorem terminal_ops_drop_socket_entry_witness :
    alookup (rejectCall exInitiated exUser "c1" 1).state.callSocketMap "c1" = none :=
  (terminal_ops_drop_socket_entry exInitiated exUser "c1" 1).1 (by decide)

/-- C1 (amended): once a call record is terminal (ENDED or MISSED), no
operation of the state machine moves it back to a non-terminal status:
Initiate and Accept leave a terminal status in place, while Reject, End and
Ring Timeout overwrite it only with a terminal status (MISSED or ENDED), so
the status stays terminal forever; the counterexample shows that the status
value itself can still flip between the two terminal values. -/
theorem terminal_status_never_reverts (s : ChatState) (op : Op) (cid : String)
    (c : Call) (hc : findCall s.calls cid = some c)
    (hterm : c.status.isTerminal = true) :
    ∃ c2, findCall (applyOp s op).state.calls cid = some c2 ∧
      c2.status.isTerminal = true := by
  rcases applyOp_shape s op with ⟨hcalls, _⟩
    | ⟨k, c0, newRec, hk, hkid, hkterm, hcalls, _⟩
    | ⟨newC, hfresh, hcalls, _⟩
  · exact ⟨c, by rw [hcalls, hc], hterm⟩
  · by_cases hkc : cid = k
    · subst hkc
      rw [hc] at hk
      injection hk with hk
      subst hk
      refine ⟨newRec, ?_, hkterm hterm⟩
      rw [hcalls]
      exact findCall_update_self s.calls cid c newRec hc hkid
    · refine ⟨c, ?_, hterm⟩
      rw [hcalls]
      rw [findCall_updateCallRecord_ne s.calls k cid _ (fun c1 _ => hkid) hkc]
      exact hc
  · refine ⟨c, ?_, hterm⟩
    rw [hcalls]
    exact findCall_append_left s.calls [newC] cid c hc

/-- Witness for C1: an Accept on the ENDED call c1 leaves it terminal. -/
theorem terminal_status_never_reverts_witness :
    ∃ c2, findCall (applyOp exEnded (Op.accept exUser "c1" 9)).state.calls "c1"
      = some c2 ∧ c2.status.isTerminal = true :=
  terminal_status_never_reverts exEnded (Op.accept exUser "c1" 9) "c1"
    exEndedRecord (by decide) (by decide)

/-! The ring timer never fires after a settling operation (C5). -/

theorem applyOp_settled (s : ChatState) (op : Op) (cid : String)
    (hsome : (findCall s.calls cid).isSome = true) (hnotin : cid ∉ s.ringTimeouts) :
    (findCall (applyOp s op).state.calls cid).isSome = true ∧
      cid ∉ (applyOp s op).state.ringTimeouts := by
  rcases applyOp_shape s op with ⟨hcalls, hrt⟩
    | ⟨k, c0, newRec, hk, hkid, _, hcalls, hrt⟩
    | ⟨newC, hfresh, hcalls, hrt⟩
  · refine ⟨by rw [hcalls]; exact hsome, ?_⟩
    rcases hrt with h | ⟨k, h⟩
    · rw [h]
      exact hnotin
    · rw [h]
      intro hmem
      exact hnotin ((mem_clearTimer_iff s.ringTimeouts k cid).mp hmem).1
  · constructor
    · rw [hcalls]
      by_cases hkc : cid = k
      · subst hkc
        rw [findCall_update_self s.calls cid c0 newRec hk hkid]
        rfl
      · rw [findCall_updateCallRecord_ne s.calls k cid _ (fun c1 _ => hkid) hkc]
        exact hsome
    · rw [hrt]
      intro hmem
      exact hnotin ((mem_clearTimer_iff s.ringTimeouts k cid).mp hmem).1
  · constructor
    · rw [hcalls]
      exact findCall_append_isSome s.calls [newC] cid hsome
    · rw [hrt]
      intro hmem
      rcases (mem_armTimer_iff s.ringTimeouts newC.id cid).mp hmem with ⟨hin, _⟩ | heq
      · exact hnotin hin
      · rw [heq] at hsome
        rw [hsome] at hfresh
        simp at hfresh

theorem settled_no_ringFire (cid : String) :
    ∀ (l : List Op) (s : ChatState),
      (findCall s.calls cid).isSome = true → cid ∉ s.ringTimeouts →
      ValidOps s l → ∀ t, Op.ringFire cid t ∉ l := by
  intro l
  induction l with
  | nil =>
    intro s _ _ _ t h
    exact List.not_mem_nil _ h
  | cons op rest ih =>
    intro s hsome hnotin hvalid t hmem
    obtain ⟨hen, hrest⟩ := hvalid
    rcases List.mem_cons.mp hmem with heq | hmem2
    · subst heq
      have hin : cid ∈ s.ringTimeouts := by simpa [opEnabled] using hen
      exact hnotin hin
    · have h2 := applyOp_settled s op cid hsome hnotin
      exact ih (applyOp s op).state h2.1 h2.2 hrest t hmem2

/-- C5: once an Accept, Reject or End for a call identifier has been
processed successfully, the ring timeout for that identifier can never fire
later in any valid continuation: each of the three operations clears the
timer in the same atomic step that mutates the status, the timer is re-armed
only by an Initiate whose store-assigned id is fresh, and a RingTimeout step
is enabled only while its timer is armed. -/
theorem no_ringTimeout_after_settling_op (s : ChatState) (client : Client)
    (cid : String) (now : Nat) (op : Op)
    (hop : op = Op.accept client cid now ∨ op = Op.reject client cid now ∨
      op = Op.endOp client cid now)
    (hok : isOk (applyOp s op).resp = true) :
    ∀ (l : List Op), ValidOps (applyOp s op).state l →
      ∀ t, Op.ringFire cid t ∉ l := by
  have hsettle : (findCall (applyOp s op).state.calls cid).isSome = true ∧
      cid ∉ (applyOp s op).state.ringTimeouts := by
    rcases hop with rfl | rfl | rfl
    · obtain ⟨u, c, hu, hne, hc⟩ := acceptCall_ok s client cid now hok
      have hst : (applyOp s (Op.accept client cid now)).state
          = (acceptCall s client cid now).state := rfl
      rw [hst, acceptCall_state s client cid u now c hu hne hc]
      constructor
      · rw [show ({ s with
            calls := updateCallRecord s.calls cid (fun _ => acceptedRecord c u now),
            callSocketMap := recordRoute s.callSocketMap cid u client.id,
            ringTimeouts := clearTimer s.ringTimeouts cid } : ChatState).calls
            = updateCallRecord s.calls cid (fun _ => acceptedRecord c u now) from rfl]
        rw [findCall_update_self s.calls cid c (acceptedRecord c u now) hc
          (by rw [acceptedRecord_id]; exact findCall_id s.calls cid c hc)]
        rfl
      · exact not_mem_clearTimer_self s.ringTimeouts cid
    · obtain ⟨u, c, hu, hne, hc⟩ := rejectCall_ok s client cid now hok
      have hst : (applyOp s (Op.reject client cid now)).state
          = (rejectCall s client cid now).state := rfl
      rw [hst, rejectCall_state s client cid u now c hu hne hc]
      constructor
      · rw [show ({ s with
            calls := updateCallRecord s.calls cid (fun _ => rejectedRecord c u now),
            callSocketMap := aerase s.callSocketMap cid,
            ringTimeouts := clearTimer s.ringTimeouts cid } : ChatState).calls
            = updateCallRecord s.calls cid (fun _ => rejectedRecord c u now) from rfl]
        rw [findCall_update_self s.calls cid c (rejectedRecord c u now) hc
          (findCall_id s.calls cid c hc)]
        rfl
      · exact not_mem_clearTimer_self s.ringTimeouts cid
    · obtain ⟨c, hc⟩ := endCall_ok s client cid now hok
      have hst : (applyOp s (Op.endOp client cid now)).state
          = (endCall s client cid now).state := rfl
      rw [hst, endCall_state s client cid now c hc]
      constructor
      · rw [show ({ s with
            calls := updateCallRecord s.calls cid (fun _ => endedRecord c now),
            callSocketMap := aerase s.callSocketMap cid,
            ringTimeouts := clearTimer s.ringTimeouts cid } : ChatState).calls
            = updateCallRecord s.calls cid (fun _ => endedRecord c now) from rfl]
        rw [findCall_update_self s.calls cid c (endedRecord c now) hc
          (findCall_id s.calls cid c hc)]
        rfl
      · exact not_mem_clearTimer_self s.ringTimeouts cid
  intro l hvalid t
  exact settled_no_ringFire cid l (applyOp s op).state hsettle.1 hsettle.2 hvalid t

/-- Witness for C5: after user b accepts c1, the end by admin a is a valid
continuation and contains no ring timeout for c1. -/
theorem no_ringTimeout_after_settling_op_witness :
    Op.ringFire "c1" 31 ∉ [Op.endOp exAdmin "c1" 2] :=
  no_ringTimeout_after_settling_op exInitiated exUser "c1" 1
    (Op.accept exUser "c1" 1) (Or.inl rfl) (by decide)
    [Op.endOp exAdmin "c1" 2] ⟨rfl, trivial⟩ 31

end ChatCore
